import Mathlib

/-!
Shallow embedding of the floating-overlay layout and scrolling engine of
this repository (src/helix-term/src/ui/lsp/peek_popup.rs) together with the
progress-spinner counter (src/helix-term/src/ui/spinner.rs).

Machine integers are modelled as Nat / Int.  Rust u16 arithmetic that can
wrap in release builds is made explicit with `wadd` / `wsub` (mod 2^16);
Rust `saturating_sub` on unsigned integers coincides with Nat subtraction,
`saturating_add` is `satAdd`.  Fallible computations (Rust panics such as
division by zero) return `Option`.
-/

namespace Helix

/-! ### u16 arithmetic -/

/-- Wrapping u16 addition (Rust release-mode `a + b` on `u16`). -/
def wadd (a b : Nat) : Nat := (a + b) % 65536

/-- Wrapping u16 subtraction (Rust release-mode `a - b` on `u16`),
for operands already reduced below 2^16. -/
def wsub (a b : Nat) : Nat := (a + 65536 - b) % 65536

/-- Saturating u16 addition (Rust `u16::saturating_add`). -/
def satAdd (a b : Nat) : Nat := min (a + b) 65535

/-! ### Geometry primitives

Modelled from the spec: the `Rect` / `Margin` primitives live in
helix-view/src/graphics.rs, which is not included under src/; the spec
describes a viewport as a "rectangle (x, y, width, height) in character
cells".  `right`/`bottom` saturate, and `inner` shrinks a rectangle by a
margin on every side, returning the empty rectangle when it does not fit. -/

structure Rect where
  x : Nat
  y : Nat
  width : Nat
  height : Nat
deriving DecidableEq, Repr

def Rect.left (r : Rect) : Nat := r.x

def Rect.right (r : Rect) : Nat := satAdd r.x r.width

def Rect.top (r : Rect) : Nat := r.y

def Rect.bottom (r : Rect) : Nat := satAdd r.y r.height

/-- `Rect.inner` with `Margin::all(1)` as used by the popup renderer. -/
def Rect.innerAll1 (r : Rect) : Rect :=
  if r.width < 2 ∨ r.height < 2 then ⟨0, 0, 0, 0⟩
  else ⟨r.x + 1, r.y + 1, r.width - 2, r.height - 2⟩

/-- Screen-space anchor position (`helix_core::Position`, row/col are usize). -/
structure Position where
  row : Nat
  col : Nat
deriving DecidableEq, Repr

/-- Containment of one rectangle in another, on exact (unsaturated) extents. -/
def rectContained (inner outer : Rect) : Prop :=
  outer.x ≤ inner.x ∧ outer.y ≤ inner.y ∧
  inner.x + inner.width ≤ outer.x + outer.width ∧
  inner.y + inner.height ≤ outer.y + outer.height

instance (a b : Rect) : Decidable (rectContained a b) := by
  unfold rectContained; infer_instance

/-- A cell (column, row) lies inside a rectangle. -/
def cellIn (c : Nat × Nat) (r : Rect) : Prop :=
  r.x ≤ c.1 ∧ c.1 < r.x + r.width ∧ r.y ≤ c.2 ∧ c.2 < r.y + r.height

instance (c : Nat × Nat) (r : Rect) : Decidable (cellIn c r) := by
  unfold cellIn; infer_instance

/-! ### Placement engine (peek_popup.rs, `render_info`) -/

/-- Side preference `Open` (crate::commands::Open). -/
inductive Side where
  | above
  | below
deriving DecidableEq, Repr

def MIN_HEIGHT : Nat := 6
def MAX_HEIGHT : Nat := 26
def MAX_WIDTH : Nat := 120

/-- `viewport.height > rel_y + MIN_HEIGHT` (u16 addition wraps). -/
def canPutBelow (vh ry : Nat) : Bool := decide (wadd ry MIN_HEIGHT < vh)

/-- `rel_y.checked_sub(MIN_HEIGHT).is_some()`. -/
def canPutAbove (ry : Nat) : Bool := decide (MIN_HEIGHT ≤ ry)

/-- Resolution of the final placement side from the bias and feasibility. -/
def resolveSide (bias : Side) (vh ry : Nat) : Side :=
  match bias with
  | .below => if canPutBelow vh ry then .below else .above
  | .above => if canPutAbove ry then .above else .below

/-- Space budget in the chosen direction (`max_height` before clamping):
above → `rel_y`; below → `viewport.height.saturating_sub(1 + rel_y)`. -/
def maxHeightRaw (side : Side) (vh ry : Nat) : Nat :=
  match side with
  | .above => ry
  | .below => vh - wadd 1 ry

/-- Border reservation: 2 cells per axis when borders are drawn. -/
def bdr2 (b : Bool) : Nat := if b then 2 else 0

/-- `render_borders && max_height > 3 && max_width > 3`. -/
def bordersOn (wants : Bool) (mh mw : Nat) : Bool :=
  wants && decide (3 < mh) && decide (3 < mw)

/-- Final popup width from the content reply:
`width.min(MAX_WIDTH)` then `+ 2` if borders were reserved. -/
def popupWidth (borders : Bool) (w : Nat) : Nat :=
  min w MAX_WIDTH + bdr2 borders

/-- Final popup height from the content reply:
`(child_height + 2).min(MAX_HEIGHT)` with borders (the u16 addition may
wrap), otherwise `child_height.min(MAX_HEIGHT)`. -/
def popupHeight (borders : Bool) (h : Nat) : Nat :=
  if borders then min ((h + 2) % 65536) MAX_HEIGHT else min h MAX_HEIGHT

/-- Horizontal placement: keep the anchor column unless the popup would
stick out on the right, in which case shift left then re-clamp the width:
`if viewport.width <= rel_x + width + 2 { rel_x = vw.saturating_sub(width+2);
width = vw.saturating_sub(rel_x + 2) }`.  Returns (x, width). -/
def horizontalPlace (vw relX w : Nat) : Nat × Nat :=
  if vw ≤ wadd relX (w + 2) then
    (vw - (w + 2), vw - wadd (vw - (w + 2)) 2)
  else (relX, w)

/-- Vertical placement.  Above: `rel_y = rel_y.saturating_sub(height)` and
the area height is `position.row as u16 - rel_y`.  Below: `rel_y += 1`,
`y_max = viewport.bottom().min(height + rel_y)`, area height
`y_max - rel_y` (a plain u16 subtraction).  Returns (y, height). -/
def verticalPlace (side : Side) (vbottom relY h : Nat) : Nat × Nat :=
  match side with
  | .above => (relY - h, wsub relY (relY - h))
  | .below =>
    (wadd relY 1, wsub (min vbottom (wadd h (wadd relY 1))) (wadd relY 1))

structure RenderInfo where
  area : Rect
  renderBorders : Bool
deriving DecidableEq, Repr

/-- `render_info` of peek_popup.rs: computes the popup rectangle for a
viewport, anchor position, side bias, border preference and the embedded
content's `required_size` reply (`rq`, an arbitrary u16 pair function). -/
def renderInfo (v : Rect) (pos : Position) (bias : Side) (wants : Bool)
    (rq : Nat → Nat → Nat × Nat) : RenderInfo :=
  let relX := pos.col % 65536
  let relY := pos.row % 65536
  let side := resolveSide bias v.height relY
  let mh := min (maxHeightRaw side v.height relY) MAX_HEIGHT
  let mw := min (v.width - 2) MAX_WIDTH
  let b := bordersOn wants mh mw
  let q := rq (mw - bdr2 b) (mh - bdr2 b)
  let hp := horizontalPlace v.width relX (popupWidth b q.1)
  let vp := verticalPlace side v.bottom relY (popupHeight b q.2)
  { area := ⟨hp.1, vp.1, hp.2, vp.2⟩, renderBorders := b }

/-! ### Scroll state normalizer (peek_popup.rs, `render`, lines 351-368) -/

/-- Persisted scroll counters: signed half-page and quarter-page units
(isize) plus the unsigned residual offset (usize). -/
structure ScrollSt where
  shp : Int
  shhp : Int
  off : Nat
deriving DecidableEq, Repr

/-- Absolute scroll for the frame:
`max_scroll.min((shp*hps + shhp*hhps + offset).max(0) as usize)`. -/
def scrollAbs (hps hhps maxScroll : Nat) (s : ScrollSt) : Nat :=
  min maxScroll (Int.toNat (max 0 (s.shp * hps + s.shhp * hhps + s.off)))

/-- Per-frame scroll normalization.  `none` models a Rust panic: when
`half_page_size > 0` but `half_half_page_size = 0`, the re-derivation
computes `(scroll % half_page_size) / half_half_page_size`, a division by
zero.  When `half_page_size = 0` the counters are left untouched.  The
second component is the absolute scroll used for the frame. -/
def normalizeFrame (hps hhps maxScroll : Nat) (s : ScrollSt) :
    Option (ScrollSt × Nat) :=
  let scroll := scrollAbs hps hhps maxScroll s
  if 0 < hps then
    if hhps = 0 then none
    else
      let q := scroll / hps
      let q2 := scroll % hps / hhps
      some (⟨(q : Int), (q2 : Int), scroll - (q * hps + q2 * hhps)⟩, scroll)
  else some (s, scroll)

/-- The page sizes are derived from the inner height each frame:
`half_page_size = inner.height / 2`, `half_half_page_size = inner.height / 4`. -/
def renderScroll (innerHeight maxScroll : Nat) (s : ScrollSt) :
    Option (ScrollSt × Nat) :=
  normalizeFrame (innerHeight / 2) (innerHeight / 4) maxScroll s

/-! ### Cells written by `render` (background clear, border, scrollbar) -/

/-- Ceiling division as Rust `usize::div_ceil` (for a nonzero divisor). -/
def divCeil (a b : Nat) : Nat := (a + b - 1) / b

/-- All cells of a rectangle (the `surface.clear_with(area, ...)` write). -/
def clearCells (r : Rect) : List (Nat × Nat) :=
  (List.range r.height).flatMap fun dy =>
    (List.range r.width).map fun dx => (r.x + dx, r.y + dy)

/-- Perimeter cells written by `Block::bordered()` (tui draws nothing on an
empty area). -/
def borderCells (r : Rect) : List (Nat × Nat) :=
  if r.width = 0 ∨ r.height = 0 then []
  else
    (clearCells r).filter fun c =>
      c.1 = r.x ∨ c.1 = r.x + r.width - 1 ∨ c.2 = r.y ∨ c.2 = r.y + r.height - 1

/-- Scrollbar thumb height:
`win_height.pow(2).div_ceil(len).min(win_height)`. -/
def thumbHeight (winH len : Nat) : Nat := min (divCeil (winH * winH) len) winH

/-- Scrollbar thumb start line:
`(win_height - scroll_height) * scroll / max(1, len - win_height)`. -/
def thumbLine (winH len scroll : Nat) : Nat :=
  (winH - thumbHeight winH len) * scroll / max 1 (len - winH)

/-- The cell targeted for track row `i`:
`surface[(inner.right() - 1 + border, inner.top() + i)]` in u16
arithmetic. -/
def trackCell (inner : Rect) (renderBorders : Bool) (i : Nat) : Nat × Nat :=
  (wadd (wsub inner.right 1) (bif renderBorders then 1 else 0),
    wadd inner.top i)

/-- Scrollbar cells: drawn only when the content does not fit
(`len > win_height`); with borders only thumb rows are written, without
borders every track row is written. -/
def scrollbarCells (inner : Rect) (renderBorders hasScrollbar : Bool)
    (len scroll : Nat) : List (Nat × Nat) :=
  bif hasScrollbar then
    if len ≤ inner.height then []
    else
      (List.range inner.height).filterMap fun i =>
        if thumbLine inner.height len scroll ≤ i ∧
            i < thumbLine inner.height len scroll + thumbHeight inner.height len then
          some (trackCell inner renderBorders i)
        else bif renderBorders then none
        else some (trackCell inner renderBorders i)
  else []

/-- Every cell the popup engine itself writes during `render`. -/
def renderWrites (area : Rect) (renderBorders hasScrollbar : Bool)
    (len scroll : Nat) : List (Nat × Nat) :=
  clearCells area ++ (bif renderBorders then borderCells area else []) ++
    scrollbarCells (bif renderBorders then area.innerAll1 else area)
      renderBorders hasScrollbar len scroll

/-! ### Event routing (peek_popup.rs, `handle_event` / `handle_mouse_event`) -/

inductive CbKind where
  | closePopup
  | contentCb
deriving DecidableEq, Repr

/-- `EventResult` with the callback it carries. -/
inductive ERes where
  | ignored (cb : Option CbKind)
  | consumed (cb : Option CbKind)
deriving DecidableEq, Repr

inductive KeyEvt where
  | esc
  | ctrlC
  | ctrlD
  | ctrlU
  | ctrlF
  | ctrlB
  | enter
  | otherKey
deriving DecidableEq, Repr

/-- Outcome of routing one key event: the result, whether the embedded
content's `handle_event` was invoked, and the deltas applied to the
half-page / quarter-page scroll counters. -/
structure KeyOut where
  res : ERes
  contentCalled : Bool
  dHalf : Int
  dQuarter : Int
deriving DecidableEq, Repr

/-- Key routing of `handle_event`.  `contentRes` is whatever the embedded
content's `handle_event` would return if invoked. -/
def handleKey (ignoreEsc autoClose : Bool) (contentRes : ERes)
    (k : KeyEvt) : KeyOut :=
  if k = .esc ∧ ignoreEsc then ⟨.ignored none, false, 0, 0⟩
  else
    match k with
    | .esc | .ctrlC => ⟨.consumed (some .closePopup), true, 0, 0⟩
    | .ctrlD => ⟨.consumed none, false, 1, 0⟩
    | .ctrlU => ⟨.consumed none, false, -1, 0⟩
    | .ctrlF => ⟨.consumed none, false, 0, -1⟩
    | .ctrlB => ⟨.consumed none, false, 0, 1⟩
    | .enter => ⟨.consumed (some .closePopup), true, 0, 0⟩
    | .otherKey =>
      if autoClose ∧ contentRes = .ignored none then
        ⟨.ignored (some .closePopup), true, 0, 0⟩
      else ⟨contentRes, true, 0, 0⟩

inductive MouseKind where
  | scrollUp
  | scrollDown
  | otherMouse
deriving DecidableEq, Repr

structure MouseOut where
  res : ERes
  dHalf : Int
deriving DecidableEq, Repr

/-- Pointer-inside test of `handle_mouse_event`:
`x >= area.left() && x < area.right() && y >= area.top() && y < area.bottom()`. -/
def mouseInside (area : Rect) (x y : Nat) : Prop :=
  area.left ≤ x ∧ x < area.right ∧ area.top ≤ y ∧ y < area.bottom

instance (area : Rect) (x y : Nat) : Decidable (mouseInside area x y) := by
  unfold mouseInside; infer_instance

/-- `handle_mouse_event`: events outside the stored area are ignored;
inside, wheel events scroll by half pages when the scrollbar is enabled. -/
def handleMouse (area : Rect) (hasScrollbar : Bool) (kind : MouseKind)
    (x y : Nat) : MouseOut :=
  if mouseInside area x y then
    match kind with
    | .scrollDown =>
      if hasScrollbar then ⟨.consumed none, 1⟩ else ⟨.ignored none, 0⟩
    | .scrollUp =>
      if hasScrollbar then ⟨.consumed none, -1⟩ else ⟨.ignored none, 0⟩
    | .otherMouse => ⟨.ignored none, 0⟩
  else ⟨.ignored none, 0⟩

/-! ### Progress spinner (spinner.rs) -/

/-- The world of spinners: the per-spinner active flags (Rust
`Spinner.start.is_some()`) and the global `ACTIVE_SPINNER_COUNT`. -/
structure SpinnerWorld where
  spinners : List Bool
  count : Nat
deriving DecidableEq, Repr

/-- `Spinner::start`: increments the global count only on an idle→active
transition; an already-active spinner only refreshes its timestamp. -/
def startSpinner (w : SpinnerWorld) (i : Nat) : SpinnerWorld :=
  if w.spinners.getD i true then w
  else ⟨w.spinners.set i true, w.count + 1⟩

/-- `Spinner::stop`: decrements the global count only on an active→idle
transition; stopping a stopped spinner is a no-op. -/
def stopSpinner (w : SpinnerWorld) (i : Nat) : SpinnerWorld :=
  if w.spinners.getD i false then ⟨w.spinners.set i false, w.count - 1⟩
  else w

/-- `any_spinner_active()`: `ACTIVE_SPINNER_COUNT.load(...) > 0`. -/
def anySpinnerActive (w : SpinnerWorld) : Bool := decide (0 < w.count)

/-- The count invariant: the global counter equals the number of active
spinners. -/
def countInv (w : SpinnerWorld) : Prop :=
  w.count = (w.spinners.filter id).length

instance (w : SpinnerWorld) : Decidable (countInv w) := by
  unfold countInv; infer_instance

end Helix

namespace Helix

/-! ### Helper lemmas -/

theorem wadd_eq_of_lt {a b : Nat} (h : a + b < 65536) : wadd a b = a + b :=
  Nat.mod_eq_of_lt h

theorem wsub_eq_of_le {a b : Nat} (hba : b ≤ a) (ha : a < 65536) :
    wsub a b = a - b := by
  unfold wsub
  have h1 : a + 65536 - b = (a - b) + 65536 := by omega
  rw [h1, Nat.add_mod_right, Nat.mod_eq_of_lt (by omega)]

theorem satAdd_eq_of_le {a b : Nat} (h : a + b ≤ 65535) : satAdd a b = a + b := by
  unfold satAdd; omega

theorem popupWidth_le (b : Bool) (w : Nat) : popupWidth b w ≤ 122 := by
  unfold popupWidth bdr2 MAX_WIDTH
  have := Nat.min_le_right w 120
  split <;> omega

theorem popupHeight_le (b : Bool) (h : Nat) : popupHeight b h ≤ 26 := by
  unfold popupHeight MAX_HEIGHT
  split
  · exact Nat.min_le_right _ _
  · exact Nat.min_le_right _ _

theorem horizontalPlace_bound (vw relX w : Nat) (h1 : relX < vw)
    (h2 : vw ≤ 65412) (h3 : w ≤ 122) :
    (horizontalPlace vw relX w).1 + (horizontalPlace vw relX w).2 ≤ vw := by
  unfold horizontalPlace
  rw [wadd_eq_of_lt (by omega)]
  split
  · rw [wadd_eq_of_lt (by omega)]
    simp only
    omega
  · simp only
    omega

theorem verticalPlace_bound (side : Side) (vh relY h : Nat) (h1 : relY < vh)
    (h2 : vh ≤ 65509) (h3 : h ≤ 26) :
    (verticalPlace side vh relY h).1 + (verticalPlace side vh relY h).2 ≤ vh := by
  unfold verticalPlace
  cases side
  · simp only
    rw [wsub_eq_of_le (by omega) (by omega)]
    omega
  · simp only
    rw [wadd_eq_of_lt (by omega), wadd_eq_of_lt (by omega)]
    rw [wsub_eq_of_le (by omega) (by omega)]
    omega

end Helix

namespace Helix

/-- Claim C2 (code bug): with inner height 2 the page sizes resolve to
half_page_size = 1 and quarter_page_size = 0; the guard `half_page_size > 0`
does not skip re-derivation, and the code evaluates
`(scroll % half_page_size) / half_half_page_size`, a division by zero
(modelled as `none`), instead of skipping re-derivation as the claim
states. -/
theorem scroll_renorm_div_by_zero :
    renderScroll 2 5 ⟨1, 0, 0⟩ = none ∧ 2 / 2 = 1 ∧ 2 / 4 = 0 := by decide

/-- Claim C4, counterexample: pressing Escape with ignore_escape_key
disabled does invoke the embedded content's handle_event (the code runs
`let _ = self.contents.handle_event(event, cx)` in the cancel branch), so
the claim that the content's handle_event is not invoked is false. -/
theorem cancel_key_invokes_content :
    (handleKey false false (.ignored none) .esc).contentCalled = true := by
  decide

/-- Claim C4 as amended: a designated cancel key (Escape with
ignore_escape_key disabled, or Ctrl-C) yields Consumed carrying the close
callback and leaves the scroll counters unchanged, but the event is first
forwarded to the embedded content (its result discarded). -/
theorem cancel_key_closes_and_forwards (ignoreEsc autoClose : Bool)
    (contentRes : ERes) (k : KeyEvt)
    (hk : k = .esc ∧ ignoreEsc = false ∨ k = .ctrlC) :
    handleKey ignoreEsc autoClose contentRes k =
      ⟨.consumed (some .closePopup), true, 0, 0⟩ := by
  rcases hk with ⟨hk, hi⟩ | hk <;> subst hk <;> simp [handleKey]
  simp [hi]

/-- Witness for `cancel_key_closes_and_forwards` at Escape with
ignore_escape_key disabled. -/
theorem cancel_key_closes_and_forwards_witness :
    handleKey false true (.ignored none) .esc =
      ⟨.consumed (some .closePopup), true, 0, 0⟩ :=
  cancel_key_closes_and_forwards false true (.ignored none) .esc
    (Or.inl ⟨rfl, rfl⟩)

/-- Claim C5, counterexample: with borders reserved and a content height
reply of 25 cells, the code computes `(25 + 2).min(26) = 26`, not
`min(25, 26) + 2 = 27` as the claim states. -/
theorem border_height_clamp_order :
    popupHeight true 25 = 26 ∧ min 25 26 + 2 = 27 ∧
      popupHeight true 25 ≠ min 25 26 + 2 := by decide

/-- Claim C5 as amended: when borders are reserved the 2 border cells are
added to the content height first and the sum is then clamped to the
maximum height 26, i.e. height = min(h + 2, 26); the width is clamped
first and gets the border cells afterwards, i.e. width = min(w, 120) + 2. -/
theorem border_size_formulas (h w : Nat) (hh : h + 2 < 65536) :
    popupHeight true h = min (h + 2) MAX_HEIGHT ∧
      popupWidth true w = min w MAX_WIDTH + 2 := by
  constructor
  · unfold popupHeight
    rw [if_pos rfl, Nat.mod_eq_of_lt hh]
  · rfl

/-- Witness for `border_size_formulas` at h = 25, w = 50. -/
theorem border_size_formulas_witness :
    popupHeight true 25 = min 27 MAX_HEIGHT ∧
      popupWidth true 50 = min 50 MAX_WIDTH + 2 :=
  border_size_formulas 25 50 (by decide)

/-- Claim C6, counterexample: a wheel-up event whose pointer lies inside
the popup area is ignored (not consumed) when the scrollbar is disabled,
because the match guards `if self.has_scrollbar` fail and the event falls
through to the ignore arm. -/
theorem wheel_ignored_without_scrollbar :
    handleMouse ⟨0, 0, 10, 10⟩ false .scrollUp 5 5 = ⟨.ignored none, 0⟩ ∧
      mouseInside ⟨0, 0, 10, 10⟩ 5 5 := by decide

/-- Claim C6 as amended: when the scrollbar is enabled, a wheel-up
(resp. wheel-down) event with its pointer inside the stored popup area is
consumed and decrements (resp. increments) scroll_half_pages by one; any
mouse event with its pointer outside the area is ignored and changes
nothing, regardless of the scrollbar setting. -/
theorem wheel_scroll_policy (area : Rect) (hs : Bool) (kind : MouseKind)
    (x y : Nat) :
    (mouseInside area x y → hs = true →
      (kind = .scrollUp → handleMouse area hs kind x y = ⟨.consumed none, -1⟩) ∧
      (kind = .scrollDown → handleMouse area hs kind x y = ⟨.consumed none, 1⟩)) ∧
    (¬ mouseInside area x y → handleMouse area hs kind x y = ⟨.ignored none, 0⟩) := by
  constructor
  · intro hin hhs
    constructor <;> intro hk <;> subst hk <;> subst hhs <;>
      simp [handleMouse, hin]
  · intro hout
    simp [handleMouse, hout]

/-- Witness for `wheel_scroll_policy`: wheel-up at (5,5) inside a 10×10
area with the scrollbar enabled is consumed with delta -1. -/
theorem wheel_scroll_policy_witness :
    handleMouse ⟨0, 0, 10, 10⟩ true .scrollUp 5 5 = ⟨.consumed none, -1⟩ :=
  ((wheel_scroll_policy ⟨0, 0, 10, 10⟩ true .scrollUp 5 5).1
    (by decide) rfl).1 rfl

/-- Claim C7: side resolution.  With bias Below, if
viewport.height ≤ anchor.row + MIN_HEIGHT the resolved side is Above;
with bias Above, if anchor.row < MIN_HEIGHT the resolved side is Below;
whenever the biased direction is feasible it is honored.  The hypothesis
keeps the anchor row inside the u16 range used by the code
(`rel_y = position.row as u16`). -/
theorem side_resolution (vh row : Nat) (hrow : row + MIN_HEIGHT < 65536) :
    (vh ≤ row + MIN_HEIGHT → resolveSide .below vh (row % 65536) = .above) ∧
    (row < MIN_HEIGHT → resolveSide .above vh (row % 65536) = .below) ∧
    (row + MIN_HEIGHT < vh → resolveSide .below vh (row % 65536) = .below) ∧
    (MIN_HEIGHT ≤ row → resolveSide .above vh (row % 65536) = .above) := by
  have hr : row % 65536 = row := Nat.mod_eq_of_lt (by omega)
  rw [hr]
  unfold resolveSide canPutBelow canPutAbove
  rw [wadd_eq_of_lt hrow]
  refine ⟨fun h => ?_, fun h => ?_, fun h => ?_, fun h => ?_⟩ <;>
    simp only [decide_eq_true_eq] <;> split <;> first | rfl | omega

/-- Witness for `side_resolution`: the spec's worked example, viewport
height 24, anchor row 20 — below is infeasible, so bias Below resolves to
Above. -/
theorem side_resolution_witness :
    resolveSide .below 24 (20 % 65536) = .above :=
  (side_resolution 24 20 (by decide)).1 (by decide)

/-- Claim C8: for every raw scroll tuple, including negative unit counts,
the absolute scroll computed at normalization lies in [0, max_scroll]. -/
theorem scroll_abs_in_range (hps hhps maxScroll : Nat) (s : ScrollSt) :
    0 ≤ scrollAbs hps hhps maxScroll s ∧
      scrollAbs hps hhps maxScroll s ≤ maxScroll :=
  ⟨Nat.zero_le _, Nat.min_le_left _ _⟩

end Helix

namespace Helix

/-- The absolute value of a canonically re-derived scroll state is the
scroll it was derived from. -/
theorem scrollAbs_of_derived (hps hhps m scroll : Nat) (hle : scroll ≤ m) :
    scrollAbs hps hhps m
      ⟨(scroll / hps : Nat), ((scroll % hps / hhps : Nat) : Int),
        scroll - (scroll / hps * hps + scroll % hps / hhps * hhps)⟩ = scroll := by
  have h3 : scroll / hps * hps + scroll % hps = scroll := Nat.div_add_mod' scroll hps
  have h4 : scroll % hps / hhps * hhps ≤ scroll % hps := Nat.div_mul_le_self _ _
  have hsum : scroll / hps * hps + scroll % hps / hhps * hhps ≤ scroll := by omega
  unfold scrollAbs
  have key2 :
      ((scroll / hps : Nat) : Int) * hps + ((scroll % hps / hhps : Nat) : Int) * hhps +
        ((scroll - (scroll / hps * hps + scroll % hps / hhps * hhps) : Nat) : Int) =
        (scroll : Int) := by
    rw [Nat.cast_sub hsum]
    push_cast
    ring
  simp only [key2]
  rw [max_eq_right (by positivity), Int.toNat_natCast, min_eq_right hle]

/-- Re-normalizing a canonically derived state reproduces it exactly. -/
theorem normalizeFrame_renorm (hps hhps m scroll : Nat) (h1 : 0 < hps)
    (h2 : ¬ hhps = 0) (hle : scroll ≤ m) :
    normalizeFrame hps hhps m
      ⟨(scroll / hps : Nat), ((scroll % hps / hhps : Nat) : Int),
        scroll - (scroll / hps * hps + scroll % hps / hhps * hhps)⟩ =
      some (⟨(scroll / hps : Nat), ((scroll % hps / hhps : Nat) : Int),
        scroll - (scroll / hps * hps + scroll % hps / hhps * hhps)⟩, scroll) := by
  simp only [normalizeFrame, scrollAbs_of_derived hps hhps m scroll hle,
    if_pos h1, if_neg h2]

/-- Claim C9: per-frame normalization is idempotent — normalizing an
already-normalized state with unchanged geometry (same half-page size,
quarter-page size and max_scroll) yields the same three counters and the
same absolute scroll.  (A `some` hypothesis: the claim presupposes the
first normalization produced a state; geometries with
half_page_size > 0 and quarter_page_size = 0 panic instead.) -/
theorem normalize_idempotent (hps hhps maxScroll : Nat) (s t : ScrollSt)
    (a : Nat) (h : normalizeFrame hps hhps maxScroll s = some (t, a)) :
    normalizeFrame hps hhps maxScroll t = some (t, a) := by
  have hle : scrollAbs hps hhps maxScroll s ≤ maxScroll := Nat.min_le_left _ _
  simp only [normalizeFrame] at h
  by_cases h1 : 0 < hps
  · rw [if_pos h1] at h
    by_cases h2 : hhps = 0
    · rw [if_pos h2] at h; cases h
    · rw [if_neg h2] at h
      simp only [Option.some.injEq, Prod.mk.injEq] at h
      obtain ⟨ht, ha⟩ := h
      subst ht
      subst ha
      exact normalizeFrame_renorm hps hhps maxScroll
        (scrollAbs hps hhps maxScroll s) h1 h2 hle
  · rw [if_neg h1] at h
    simp only [Option.some.injEq, Prod.mk.injEq] at h
    obtain ⟨ht, ha⟩ := h
    subst ht
    subst ha
    simp only [normalizeFrame, if_neg h1]

/-- Witness for `normalize_idempotent`: the spec's worked example —
half-page 10, quarter-page 5, max_scroll 17, raw counters (3, 0, 0)
normalize to (1, 1, 2) with absolute scroll 17, and normalizing again is
the identity. -/
theorem normalize_idempotent_witness :
    normalizeFrame 10 5 17 ⟨1, 1, 2⟩ = some (⟨1, 1, 2⟩, 17) :=
  normalize_idempotent 10 5 17 ⟨3, 0, 0⟩ ⟨1, 1, 2⟩ 17 (by decide)

end Helix

namespace Helix

/-- Setting a false entry to true adds exactly one active spinner. -/
theorem filter_length_set_true (l : List Bool) (i : Nat)
    (h : l.getD i true = false) :
    ((l.set i true).filter id).length = (l.filter id).length + 1 := by
  induction l generalizing i with
  | nil => simp [List.getD] at h
  | cons a t ih =>
    cases i with
    | zero =>
      simp only [List.getD_cons_zero] at h
      subst h
      simp [List.filter]
    | succ n =>
      simp only [List.getD_cons_succ] at h
      simp only [List.set_cons_succ, List.filter]
      cases a <;> simp [ih n h]

/-- Setting a true entry to false removes exactly one active spinner. -/
theorem filter_length_set_false (l : List Bool) (i : Nat)
    (h : l.getD i false = true) :
    ((l.set i false).filter id).length + 1 = (l.filter id).length := by
  induction l generalizing i with
  | nil => simp [List.getD] at h
  | cons a t ih =>
    cases i with
    | zero =>
      simp only [List.getD_cons_zero] at h
      subst h
      simp [List.filter]
    | succ n =>
      simp only [List.getD_cons_succ] at h
      simp only [List.set_cons_succ, List.filter]
      cases a <;> simp [← ih n h]

/-- Claim C10: the global active-spinner count is incremented only on an
idle→active transition and decremented only on active→idle (start on an
active spinner and stop on a stopped one are no-ops on the counter), so it
always equals the number of active indicators, `any_spinner_active`
reflects it, and in particular starting two indicators then stopping one
leaves the global flag true while stopping both leaves it false. -/
theorem spinner_count_correct :
    (∀ w i, countInv w → countInv (startSpinner w i)) ∧
    (∀ w i, countInv w → countInv (stopSpinner w i)) ∧
    (∀ w i, w.spinners.getD i true = true → startSpinner w i = w) ∧
    (∀ w i, w.spinners.getD i false = false → stopSpinner w i = w) ∧
    (∀ w, countInv w →
      (anySpinnerActive w = true ↔ 0 < (w.spinners.filter id).length)) ∧
    (let w0 : SpinnerWorld := ⟨[false, false], 0⟩
     let w1 := stopSpinner (startSpinner (startSpinner w0 0) 1) 0
     anySpinnerActive w1 = true ∧
       anySpinnerActive (stopSpinner w1 1) = false) := by
  refine ⟨?_, ?_, ?_, ?_, ?_, by decide⟩
  · intro w i hw
    unfold startSpinner
    split
    · exact hw
    next h =>
      unfold countInv at hw ⊢
      simp only
      rw [filter_length_set_true w.spinners i (by simpa using h), hw]
  · intro w i hw
    unfold stopSpinner
    split
    · unfold countInv at hw ⊢
      simp only
      have := filter_length_set_false w.spinners i (by assumption)
      omega
    · exact hw
  · intro w i h
    unfold startSpinner
    rw [if_pos h]
  · intro w i h
    unfold stopSpinner
    rw [if_neg (by rw [h]; simp)]
  · intro w hw
    unfold anySpinnerActive countInv at *
    simp [hw]

/-- Witness for `spinner_count_correct`: starting the idle spinner 0 in a
world with one active spinner preserves the count invariant. -/
theorem spinner_count_correct_witness :
    countInv (startSpinner ⟨[false, true], 1⟩ 0) :=
  spinner_count_correct.1 ⟨[false, true], 1⟩ 0 (by decide)

end Helix

namespace Helix

/-- Claim C1, counterexample: with viewport 80×24 at the origin and an
anchor at row 100 (outside the viewport — a case the claim explicitly
includes) and bias Below, below is infeasible so the popup is placed
above the anchor at y = 90, entirely outside the viewport. -/
theorem popup_area_escapes_viewport :
    (renderInfo ⟨0, 0, 80, 24⟩ ⟨100, 0⟩ .below false fun _ _ => (10, 10)).area =
        ⟨0, 90, 10, 10⟩ ∧
      ¬ rectContained
        (renderInfo ⟨0, 0, 80, 24⟩ ⟨100, 0⟩ .below false fun _ _ => (10, 10)).area
        ⟨0, 0, 80, 24⟩ := by decide

/-- Claim C1 as amended: for every origin viewport whose dimensions leave
headroom for the code's u16 arithmetic (width ≤ 65412, height ≤ 65509),
every anchor strictly inside the viewport, every side bias, border
preference and content size reply, the computed popup area is fully
contained in the viewport. -/
theorem popup_area_contained (v : Rect) (pos : Position) (bias : Side)
    (wants : Bool) (rq : Nat → Nat → Nat × Nat)
    (hvx : v.x = 0) (hvy : v.y = 0)
    (hrow : pos.row < v.height) (hcol : pos.col < v.width)
    (hW : v.width ≤ 65412) (hH : v.height ≤ 65509) :
    rectContained (renderInfo v pos bias wants rq).area v := by
  have hcol16 : pos.col % 65536 = pos.col := Nat.mod_eq_of_lt (by omega)
  have hrow16 : pos.row % 65536 = pos.row := Nat.mod_eq_of_lt (by omega)
  have hbot : v.bottom = v.height := by
    unfold Rect.bottom satAdd
    omega
  unfold rectContained
  refine ⟨?_, ?_, ?_, ?_⟩
  · rw [hvx]
    exact Nat.zero_le _
  · rw [hvy]
    exact Nat.zero_le _
  · rw [hvx]
    simp only [renderInfo, Nat.zero_add]
    exact horizontalPlace_bound _ _ _ (by rw [hcol16]; exact hcol) hW
      (popupWidth_le _ _)
  · rw [hvy]
    simp only [renderInfo, Nat.zero_add, hbot]
    exact verticalPlace_bound _ _ _ _ (by rw [hrow16]; exact hrow) hH
      (popupHeight_le _ _)

/-- Witness for `popup_area_contained`: viewport 80×24, anchor (10, 5),
bias Below, no borders, content reply (10, 10). -/
theorem popup_area_contained_witness :
    rectContained
      (renderInfo ⟨0, 0, 80, 24⟩ ⟨10, 5⟩ .below false fun _ _ => (10, 10)).area
      ⟨0, 0, 80, 24⟩ :=
  popup_area_contained ⟨0, 0, 80, 24⟩ ⟨10, 5⟩ .below false _ rfl rfl
    (by decide) (by decide) (by decide) (by decide)

end Helix


namespace Helix

/-- Background-clear writes stay inside the cleared rectangle. -/
theorem cellIn_of_mem_clearCells (r : Rect) (c : Nat × Nat)
    (h : c ∈ clearCells r) : cellIn c r := by
  unfold clearCells at h
  simp only [List.mem_flatMap, List.mem_map, List.mem_range] at h
  obtain ⟨dy, hdy, dx, hdx, rfl⟩ := h
  exact ⟨by omega, by omega, by omega, by omega⟩

/-- Shape of any scrollbar write: some track row below the window
height. -/
theorem scrollbarCells_mem (inner : Rect) (rb hs : Bool) (len scroll : Nat)
    (c : Nat × Nat) (hc : c ∈ scrollbarCells inner rb hs len scroll) :
    ∃ i < inner.height, c = trackCell inner rb i := by
  unfold scrollbarCells at hc
  cases hs
  · simp only [Bool.cond_false, List.not_mem_nil] at hc
  · simp only [Bool.cond_true] at hc
    by_cases hlen : len ≤ inner.height
    · rw [if_pos hlen] at hc
      simp at hc
    · rw [if_neg hlen] at hc
      simp only [List.mem_filterMap, List.mem_range] at hc
      obtain ⟨i, hi, heq⟩ := hc
      refine ⟨i, hi, ?_⟩
      by_cases h1 : thumbLine inner.height len scroll ≤ i ∧
          i < thumbLine inner.height len scroll + thumbHeight inner.height len
      · rw [if_pos h1, Option.some.injEq] at heq
        exact heq.symm
      · rw [if_neg h1] at heq
        cases rb
        · simp only [Bool.cond_false, Option.some.injEq] at heq
          exact heq.symm
        · simp only [Bool.cond_true] at heq
          cases heq

/-- Without borders the track cell of row `i < area.height` lies in the
area, given positive width and u16 headroom. -/
theorem trackCell_in_area_noborder (area : Rect) (i : Nat)
    (hi : i < area.height) (hw : 1 ≤ area.width)
    (hx : area.x + area.width ≤ 65535) (hy : area.y + area.height ≤ 65535) :
    cellIn (trackCell area false i) area := by
  unfold trackCell Rect.right Rect.top
  rw [satAdd_eq_of_le hx, Bool.cond_false,
    wsub_eq_of_le (by omega) (by omega), wadd_eq_of_lt (by omega),
    wadd_eq_of_lt (by omega)]
  exact ⟨by omega, by omega, by omega, by omega⟩

/-- With borders the track cell of an inner row lies in the outer area,
given u16 headroom. -/
theorem trackCell_in_area_border (area : Rect) (i : Nat)
    (hi : i < area.innerAll1.height)
    (hx : area.x + area.width ≤ 65535) (hy : area.y + area.height ≤ 65535) :
    cellIn (trackCell area.innerAll1 true i) area := by
  unfold Rect.innerAll1 at hi ⊢
  by_cases hsmall : area.width < 2 ∨ area.height < 2
  · rw [if_pos hsmall] at hi
    simp only at hi
    omega
  · rw [if_neg hsmall] at hi ⊢
    simp only at hi
    unfold trackCell Rect.right Rect.top
    simp only [Bool.cond_true]
    rw [satAdd_eq_of_le (by omega), wsub_eq_of_le (by omega) (by omega),
      wadd_eq_of_lt (by omega), wadd_eq_of_lt (by omega)]
    exact ⟨by omega, by omega, by omega, by omega⟩

/-- Claim C3, counterexample: the reachable geometry viewport 5×20 at the
origin, anchor (0, 3), bias Below, no borders, content reply (0, 10) and
11 content lines yields the zero-width popup area (3, 1, 0, 10); the
scrollbar track is nevertheless written at column 2 — outside the
(empty) popup area. -/
theorem render_write_outside_area :
    (renderInfo ⟨0, 0, 5, 20⟩ ⟨0, 3⟩ .below false fun _ _ => (0, 10)).area =
        ⟨3, 1, 0, 10⟩ ∧
      (2, 1) ∈ renderWrites
        (renderInfo ⟨0, 0, 5, 20⟩ ⟨0, 3⟩ .below false fun _ _ => (0, 10)).area
        (renderInfo ⟨0, 0, 5, 20⟩ ⟨0, 3⟩ .below false fun _ _ => (0, 10)).renderBorders
        true 11 0 ∧
      ¬ cellIn (2, 1)
        (renderInfo ⟨0, 0, 5, 20⟩ ⟨0, 3⟩ .below false fun _ _ => (0, 10)).area := by
  decide

/-- Claim C3 as amended: every cell the engine writes during render (the
background clear, the border, and the scrollbar track/thumb cells) lies
within the popup area, provided the area has positive width and its
extents fit in u16 without saturation.  (A zero-width area with positive
height and overflowing content makes the scrollbar write one column to
the left of the area.) -/
theorem render_writes_within_area (area : Rect) (rb hs : Bool)
    (len scroll : Nat) (hw : 1 ≤ area.width)
    (hx : area.x + area.width ≤ 65535) (hy : area.y + area.height ≤ 65535) :
    ∀ c ∈ renderWrites area rb hs len scroll, cellIn c area := by
  intro c hc
  unfold renderWrites at hc
  simp only [List.mem_append] at hc
  rcases hc with (hc | hc) | hc
  · exact cellIn_of_mem_clearCells area c hc
  · cases rb
    · simp only [Bool.cond_false, List.not_mem_nil] at hc
    · simp only [Bool.cond_true] at hc
      unfold borderCells at hc
      split at hc
      · cases hc
      · exact cellIn_of_mem_clearCells area c (List.mem_of_mem_filter hc)
  · cases rb
    · simp only [Bool.cond_false] at hc
      obtain ⟨i, hi, rfl⟩ := scrollbarCells_mem area false hs len scroll c hc
      exact trackCell_in_area_noborder area i hi hw hx hy
    · simp only [Bool.cond_true] at hc
      obtain ⟨i, hi, rfl⟩ :=
        scrollbarCells_mem area.innerAll1 true hs len scroll c hc
      exact trackCell_in_area_border area i hi hx hy

/-- Witness for `render_writes_within_area`: a borderless 5×5 popup at
the origin with 6 content lines — the scrollbar cell (4, 2) it writes
lies in the area. -/
theorem render_writes_within_area_witness :
    cellIn (4, 2) ⟨0, 0, 5, 5⟩ :=
  render_writes_within_area ⟨0, 0, 5, 5⟩ false true 6 0 (by decide)
    (by decide) (by decide) (4, 2) (by decide)

end Helix
